import Mathlib

/-!
Verification of the XSD-to-LAMMPS converter (`xsd_to_lammps.py`).

The development shallowly embeds the converter: the parsed XML document is a
tree of `XMLElem` nodes, Python floats are modelled as rationals, the mutable
`XSDtoLAMMPS` object is a `Model` record threaded through the parsing
functions, and fallible code returns `Except`.  Python dictionaries are
insertion-ordered association lists.
-/

namespace XSD2LAMMPS

/-- An XML element as seen by `xml.etree.ElementTree`: a tag (which carries the
namespace URI in braces when the document is namespaced), an attribute list,
optional text content, and child elements in document order. -/
inductive XMLElem : Type where
  | mk : String → List (String × String) → Option String → List XMLElem → XMLElem

def XMLElem.tag : XMLElem → String
  | .mk t _ _ _ => t

def XMLElem.attrs : XMLElem → List (String × String)
  | .mk _ a _ _ => a

def XMLElem.text : XMLElem → Option String
  | .mk _ _ tx _ => tx

def XMLElem.children : XMLElem → List XMLElem
  | .mk _ _ _ cs => cs

/-- The namespace URI used by Materials Studio XSD files. -/
def nsURI : String := "http://www.accelrys.com/xsd"

/-- Namespace-qualified tag, `\x7buri\x7dtag`, as ElementTree stores it. -/
def nsTag (t : String) : String := "\x7b" ++ nsURI ++ "\x7d" ++ t

/-- Element.get(key): the attribute's value, if the attribute is present. -/
def XMLElem.getAttr (e : XMLElem) (k : String) : Option String :=
  (e.attrs.find? (fun p => decide (p.1 = k))).map (fun p => p.2)

mutual

/-- All proper descendants of an element, in document (preorder) order:
what `element.findall(".//Tag")` iterates over before filtering by tag. -/
def XMLElem.descendants : XMLElem → List XMLElem
  | .mk _ _ _ cs => descList cs

def descList : List XMLElem → List XMLElem
  | [] => []
  | c :: rest => c :: (XMLElem.descendants c ++ descList rest)

end

/-- Element.findall(".//t"): every descendant with the given tag. -/
def findallDesc (e : XMLElem) (t : String) : List XMLElem :=
  e.descendants.filter (fun c => decide (c.tag = t))

/-- Element.find(".//t"): the first descendant with the given tag. -/
def findDesc (e : XMLElem) (t : String) : Option XMLElem :=
  e.descendants.find? (fun c => decide (c.tag = t))

/-- Element.find("./t"): the first direct child with the given tag. -/
def findChild (e : XMLElem) (t : String) : Option XMLElem :=
  e.children.find? (fun c => decide (c.tag = t))

/-- Python `a or b` applied to two `Element.find` results.  An `Element` is
falsy exactly when it has no child elements, so a childless first result is
discarded in favour of the second operand. -/
def pyElemOr (a b : Option XMLElem) : Option XMLElem :=
  match a with
  | some el => if el.children.isEmpty then b else some el
  | none => b

/-! Python string and number primitives, restricted to the plain decimal
forms that occur in XSD attribute values (`int` and `float` additionally
accept exponents, underscores and special values, none of which matter
here). -/

/-- Python str.strip(): drop leading and trailing whitespace. -/
def pyStrip (s : String) : String :=
  ⟨((s.data.dropWhile Char.isWhitespace).reverse.dropWhile Char.isWhitespace).reverse⟩

/-- Split a character list on a separator character; `"".split(sep)` yields
one empty field, as in Python. -/
def splitOnChar (c : Char) : List Char → List (List Char)
  | [] => [[]]
  | x :: xs =>
    match splitOnChar c xs with
    | [] => if x = c then [[], []] else [[x]]
    | h :: t => if x = c then [] :: h :: t else (x :: h) :: t

/-- Python s.split(","). -/
def pySplitComma (s : String) : List String :=
  (splitOnChar ',' s.data).map (fun l => ⟨l⟩)

/-- Numeric value of a list of decimal digits. -/
def digitsVal (l : List Char) : Nat :=
  l.foldl (fun n c => n * 10 + (c.toNat - 48)) 0

/-- Strip one optional leading sign, returning the sign and the rest. -/
def signSplit (l : List Char) : Int × List Char :=
  match l with
  | '-' :: rest => (-1, rest)
  | '+' :: rest => (1, rest)
  | _ => (1, l)

/-- Python int(s) on decimal strings: strip, optional sign, digits;
`none` models the `ValueError` raised otherwise (or the `TypeError` when the
argument is not a string at all, handled at the call sites). -/
def pyInt? (s : String) : Option Int :=
  let t := (pyStrip s).data
  let sd := signSplit t
  if !sd.2.isEmpty && sd.2.all Char.isDigit then
    some (sd.1 * (digitsVal sd.2 : Int))
  else none

/-- Python float(s) on plain decimal strings: strip, optional sign, an
integer form `ddd` or a decimal form `ddd.ddd` (either side possibly empty
but not both); `none` models `ValueError`. -/
def pyFloat? (s : String) : Option Rat :=
  let t := (pyStrip s).data
  let sd := signSplit t
  match splitOnChar '.' sd.2 with
  | [ip] =>
    if !ip.isEmpty && ip.all Char.isDigit then
      some ((sd.1 : Rat) * (digitsVal ip : Rat))
    else none
  | [ip, fp] =>
    if (!ip.isEmpty || !fp.isEmpty) && ip.all Char.isDigit && fp.all Char.isDigit then
      some ((sd.1 : Rat) * ((digitsVal ip : Rat) + (digitsVal fp : Rat) / ((10 : Rat) ^ fp.length)))
    else none
  | _ => none

/-- The body of the `try` around `x, y, z = map(float, xyz_str.split(','))`:
three comma-separated floats, `none` when unpacking or conversion fails. -/
def pyXYZ3? (s : String) : Option (Rat × Rat × Rat) :=
  match (pySplitComma s).mapM pyFloat? with
  | some [x, y, z] => some (x, y, z)
  | _ => none

/-- Python code-point-wise `<=` on strings (via their character lists). -/
def charListLe : List Char → List Char → Bool
  | [], _ => true
  | _ :: _, [] => false
  | a :: as, b :: bs =>
    if a.toNat < b.toNat then true
    else if b.toNat < a.toNat then false
    else charListLe as bs

/-- Python string comparison `a <= b`, used by `sorted` on two strings. -/
def pyStrLe (a b : String) : Bool := charListLe a.data b.data

/-! Insertion-ordered dictionaries (Python dict), as association lists. -/

/-- dict lookup: `d.get(k)` / `d[k]`. -/
def lookupD {α β : Type} [DecidableEq α] (d : List (α × β)) (k : α) : Option β :=
  (d.find? (fun p => decide (p.1 = k))).map (fun p => p.2)

/-- dict assignment `d[k] = v`: overwrite in place if the key exists,
otherwise append (Python dicts preserve insertion order). -/
def dictInsert {α β : Type} [DecidableEq α] (d : List (α × β)) (k : α) (v : β) :
    List (α × β) :=
  if d.any (fun p => decide (p.1 = k)) then
    d.map (fun p => if p.1 = k then (k, v) else p)
  else d ++ [(k, v)]

/-! The converter's data model: the fields of the `XSDtoLAMMPS` object. -/

/-- One entry of `self.atoms`: the per-atom record built by `parse_xsd`. -/
structure Atom where
  id : String
  name : Option String
  element : String
  forcefield_type : String
  charge : Rat
  x : Rat
  y : Rat
  z : Rat
  atom_type : Nat
  type_key : String
deriving Repr, DecidableEq

/-- One entry of `self.bonds`: the record appended by
`_extract_bonds_from_bond_elements`. -/
structure Bond where
  id : Nat
  type : Nat
  atom1 : Nat
  atom2 : Nat
  order : String
  elements : String × String × String
deriving Repr, DecidableEq

/-- The six box bounds `self.box_bounds`. -/
structure Box where
  xlo : Rat
  xhi : Rat
  ylo : Rat
  yhi : Rat
  zlo : Rat
  zhi : Rat
deriving Repr, DecidableEq

/-- The state of an `XSDtoLAMMPS` instance.  `atoms` is the insertion-ordered
dict keyed by the dense LAMMPS index; the `angle`/`dihedral` collections are
kept because the emitter prints their (always zero) sizes. -/
structure Model where
  atoms : List (Nat × Atom)
  bonds : List Bond
  angles : List Unit
  dihedrals : List Unit
  atom_types : List (String × Nat)
  bond_types : List ((String × String × String) × Nat)
  angle_types : List (String × Nat)
  dihedral_types : List (String × Nat)
  atom_type_counter : Nat
  bond_type_counter : Nat
  angle_type_counter : Nat
  dihedral_type_counter : Nat
  box_bounds : Box
  xsd_id_to_lammps_idx : List (Int × Nat)
deriving Repr, DecidableEq

/-- The state `__init__` builds. -/
def initModel : Model where
  atoms := []
  bonds := []
  angles := []
  dihedrals := []
  atom_types := []
  bond_types := []
  angle_types := []
  dihedral_types := []
  atom_type_counter := 0
  bond_type_counter := 0
  angle_type_counter := 0
  dihedral_type_counter := 0
  box_bounds := ⟨0, 0, 0, 0, 0, 0⟩
  xsd_id_to_lammps_idx := []

/-- Errors that abort `parse_xsd`: a missing `ID` attribute (Python raises
`TypeError` from `int(None)`), an unparseable `ID` or `Charge`
(`ValueError`), or — theoretically — a `KeyError` from `self.atoms[...]`
during bond extraction, which no `except` clause covers. -/
inductive PError where
  | missingID
  | badID (s : String)
  | badCharge (s : String)
  | keyError (idx : Nat)
deriving Repr, DecidableEq

/-- The interning pattern used for both type tables:
`if key not in table: counter += 1; table[key] = counter` followed by
`table[key]`.  Returns the updated table, the updated counter, and the
integer assigned to the key. -/
def internKey {α : Type} [DecidableEq α] (table : List (α × Nat)) (counter : Nat)
    (key : α) : List (α × Nat) × Nat × Nat :=
  match lookupD table key with
  | some v => (table, counter, v)
  | none => (table ++ [(key, counter + 1)], counter + 1, counter + 1)

/-- Element-symbol resolution of `parse_xsd` (lines 61-67):
`atom_elem.find('.//Components') or atom_elem.find('./\x7bns\x7dComponents')`
followed by `element = components_elem.text if components_elem.text else 'X'`
when the Python `or` produced a non-`None` element, else the `Components`
attribute with default `"X"`. -/
def resolveElement (atom_elem : XMLElem) : String :=
  let components_elem :=
    pyElemOr (findDesc atom_elem "Components") (findChild atom_elem (nsTag "Components"))
  match components_elem with
  | some ce =>
    match ce.text with
    | some t => if t = "" then "X" else t
    | none => "X"
  | none => (atom_elem.getAttr "Components").getD "X"

/-- The atom-type key: the force-field label unless it is the placeholder
`"unknown"` (the default when the attribute is absent) or falsy (empty), in
which case the element symbol is used. -/
def atomTypeKey (forcefield_type element : String) : String :=
  if forcefield_type = "unknown" ∨ forcefield_type = "" then element
  else forcefield_type

/-- `float(atom_elem.get('Charge', 0.0))`: 0 when absent; a malformed value
raises (`ValueError`), which nothing in `parse_xsd` catches. -/
def pyCharge (atom_elem : XMLElem) : Except PError Rat :=
  match atom_elem.getAttr "Charge" with
  | none => .ok 0
  | some s =>
    match pyFloat? s with
    | some q => .ok q
    | none => .error (.badCharge s)

/-- The body of the atom loop of `parse_xsd` for one `Atom3d` element at
dense index `idx`. -/
def processAtom (st : Model) (idx : Nat) (atom_elem : XMLElem) : Except PError Model :=
  match atom_elem.getAttr "ID" with
  | none => .error .missingID
  | some atom_id =>
    match pyInt? atom_id with
    | none => .error (.badID atom_id)
    | some srcId =>
      match pyCharge atom_elem with
      | .error er => .error er
      | .ok charge =>
        let idmap := dictInsert st.xsd_id_to_lammps_idx srcId idx
        let atom_name := atom_elem.getAttr "Name"
        let forcefield_type := (atom_elem.getAttr "ForcefieldType").getD "unknown"
        let xyz_str := (atom_elem.getAttr "XYZ").getD "0,0,0"
        let xyz := (pyXYZ3? xyz_str).getD (0, 0, 0)
        let element := resolveElement atom_elem
        let type_key := atomTypeKey forcefield_type element
        let r := internKey st.atom_types st.atom_type_counter type_key
        let newAtom : Atom :=
          { id := atom_id
            name := atom_name
            element := element
            forcefield_type := forcefield_type
            charge := charge
            x := xyz.1
            y := xyz.2.1
            z := xyz.2.2
            atom_type := r.2.2
            type_key := type_key }
        .ok { st with
              atoms := dictInsert st.atoms idx newAtom
              atom_types := r.1
              atom_type_counter := r.2.1
              xsd_id_to_lammps_idx := idmap }

/-- `for idx, atom_elem in enumerate(atoms_list, 1)` over the atom loop. -/
def processAtoms (st : Model) (idx : Nat) : List XMLElem → Except PError Model
  | [] => .ok st
  | e :: rest =>
    match processAtom st idx e with
    | .error er => .error er
    | .ok st1 => processAtoms st1 (idx + 1) rest

/-- `[int(p.strip()) for p in connects.split(',')]`:
`none` models the `ValueError` caught by the bond loop's `except`. -/
def parseConnects (connects : String) : Option (List Int) :=
  (pySplitComma connects).mapM (fun p => pyInt? (pyStrip p))

/-- The bond-type key `(elem_pair[0], elem_pair[1], bond_order)` with the
element pair sorted so that C-H and H-C coincide. -/
def bondTypeKey (elem1 elem2 bond_order : String) : String × String × String :=
  if pyStrLe elem1 elem2 then (elem1, elem2, bond_order)
  else (elem2, elem1, bond_order)

/-- `tuple(sorted([i, j]))` on the two dense endpoint indices. -/
def sortPair (i j : Nat) : Nat × Nat :=
  if i ≤ j then (i, j) else (j, i)

/-- The body of the loop of `_extract_bonds_from_bond_elements` for one
`Bond` element, acting on the running `(bond_id, processed_bonds)` state. -/
def processBond (st : Model) (bond_id : Nat) (processed : List (Nat × Nat))
    (bond_elem : XMLElem) : Except PError (Model × Nat × List (Nat × Nat)) :=
  let connects := (bond_elem.getAttr "Connects").getD ""
  let bond_order := (bond_elem.getAttr "Type").getD "Single"
  if connects = "" then .ok (st, bond_id, processed)
  else
    match parseConnects connects with
    | none => .ok (st, bond_id, processed)
    | some parts =>
      match parts with
      | [atom1_xsd_id, atom2_xsd_id] =>
        match lookupD st.xsd_id_to_lammps_idx atom1_xsd_id,
              lookupD st.xsd_id_to_lammps_idx atom2_xsd_id with
        | some atom1_idx, some atom2_idx =>
          let bond_tuple := sortPair atom1_idx atom2_idx
          if bond_tuple ∈ processed then .ok (st, bond_id, processed)
          else
            match lookupD st.atoms atom1_idx, lookupD st.atoms atom2_idx with
            | some a1, some a2 =>
              let bond_type_key := bondTypeKey a1.element a2.element bond_order
              let r := internKey st.bond_types st.bond_type_counter bond_type_key
              let newBond : Bond :=
                { id := bond_id
                  type := r.2.2
                  atom1 := bond_tuple.1
                  atom2 := bond_tuple.2
                  order := bond_order
                  elements := bond_type_key }
              let st1 : Model :=
                { st with
                  bonds := st.bonds ++ [newBond]
                  bond_types := r.1
                  bond_type_counter := r.2.1 }
              .ok (st1, bond_id + 1, bond_tuple :: processed)
            | some _, none => .error (.keyError atom2_idx)
            | none, _ => .error (.keyError atom1_idx)
        | _, _ => .ok (st, bond_id, processed)
      | _ => .ok (st, bond_id, processed)

/-- The bond loop over all `Bond` elements. -/
def processBonds (st : Model) (bond_id : Nat) (processed : List (Nat × Nat)) :
    List XMLElem → Except PError Model
  | [] => .ok st
  | e :: rest =>
    match processBond st bond_id processed e with
    | .error er => .error er
    | .ok (st1, b1, p1) => processBonds st1 b1 p1 rest

/-- Python `min` over a list of floats (first minimal element wins). -/
def pyMinList : List Rat → Rat
  | [] => 0
  | x :: xs => xs.foldl (fun acc y => if y < acc then y else acc) x

/-- Python `max` over a list of floats (first maximal element wins). -/
def pyMaxList : List Rat → Rat
  | [] => 0
  | x :: xs => xs.foldl (fun acc y => if acc < y then y else acc) x

/-- `_calculate_box_bounds`: early return when there are no atoms, else the
per-axis min/max of all coordinates widened by the 10.0 padding. -/
def calculate_box_bounds (st : Model) : Model :=
  if st.atoms.isEmpty then st
  else
    let x_coords := st.atoms.map (fun p => p.2.x)
    let y_coords := st.atoms.map (fun p => p.2.y)
    let z_coords := st.atoms.map (fun p => p.2.z)
    let bb : Box :=
      { xlo := pyMinList x_coords - 10
        xhi := pyMaxList x_coords + 10
        ylo := pyMinList y_coords - 10
        yhi := pyMaxList y_coords + 10
        zlo := pyMinList z_coords - 10
        zhi := pyMaxList z_coords + 10 }
    { st with box_bounds := bb }

/-- `root.findall('.//Atom3d')`, retried with the namespace-qualified tag
when the unqualified search finds nothing. -/
def atomsListOf (root : XMLElem) : List XMLElem :=
  let l := findallDesc root "Atom3d"
  if l.isEmpty then findallDesc root (nsTag "Atom3d") else l

/-- `root.findall('.//Bond')`, retried with the namespace-qualified tag. -/
def bondsListOf (root : XMLElem) : List XMLElem :=
  let l := findallDesc root "Bond"
  if l.isEmpty then findallDesc root (nsTag "Bond") else l

/-- `parse_xsd` on an already-parsed XML root: the atom pass, the bond pass
(started with `bond_id = 1` and an empty `processed_bonds` set), and the box
computation.  The Python method returns `len(self.atoms)`; the model it
leaves behind is what matters, so the whole final state is returned. -/
def parse_xsd (root : XMLElem) : Except PError Model :=
  match processAtoms initModel 1 (atomsListOf root) with
  | .error er => .error er
  | .ok st1 =>
    match processBonds st1 1 [] (bondsListOf root) with
    | .error er => .error er
    | .ok st2 => .ok (calculate_box_bounds st2)

/-! The emitter `write_lammps_data`.  File output is modelled as the string
that is written; the method only reads the model, and the embedding threads
the state through to make that checkable. -/

/-- Nearest integer to `num / den` (with `den > 0`), ties to even: the
rounding that Python's fixed-point float formatting performs. -/
def roundHalfEven (num den : Int) : Int :=
  let n := Int.fdiv num den
  let r := num - den * n
  if 2 * r < den then n
  else if den < 2 * r then n + 1
  else if n % 2 = 0 then n else n + 1

/-- Python `f"...:.df"` fixed-point formatting of a number with `d` decimal
places. -/
def fmtFloat (q : Rat) (d : Nat) : String :=
  let n := roundHalfEven (q.num * (10 : Int) ^ d) (q.den : Int)
  let sgn := if n < 0 then "-" else ""
  let ds := (toString n.natAbs).data
  let ds := if ds.length ≤ d then List.replicate (d + 1 - ds.length) '0' ++ ds else ds
  let k := ds.length - d
  if d = 0 then sgn ++ ⟨ds⟩
  else sgn ++ ⟨ds.take k⟩ ++ "." ++ ⟨ds.drop k⟩

/-- Python str.capitalize(): first character upper-cased, the rest
lower-cased. -/
def pyCapitalize (l : List Char) : List Char :=
  match l with
  | [] => []
  | c :: rest => c.toUpper :: rest.map Char.toLower

/-- Stable insertion of `x` into a list sorted by the key `f`. -/
def insertBy {α : Type} (f : α → Nat) (x : α) : List α → List α
  | [] => [x]
  | y :: ys => if f x ≤ f y then x :: y :: ys else y :: insertBy f x ys

/-- Python `sorted(l, key=f)` for an integer key: stable insertion sort. -/
def sortBy {α : Type} (f : α → Nat) (l : List α) : List α :=
  l.foldr (insertBy f) []

/-- The fixed `atomic_masses` table of `write_lammps_data`. -/
def atomic_masses : List (String × Rat) :=
  [("H", 1.008), ("C", 12.011), ("N", 14.007), ("O", 15.999),
   ("S", 32.065), ("P", 30.974), ("Cl", 35.45), ("F", 18.998),
   ("Br", 79.904), ("I", 126.904), ("Na", 22.990), ("K", 39.098),
   ("Ca", 40.078), ("Mg", 24.305), ("Al", 26.982), ("Si", 28.085)]

/-- One `Masses` row: type id, best-effort mass (default 12.0) and the type
key as a trailing comment. -/
def massLine (p : String × Nat) : String :=
  let ff_type := p.1
  let letters := ff_type.data.filter Char.isAlpha
  let element : List Char := if letters.isEmpty then ['X'] else letters
  let ek0 : List Char :=
    if element.length = 1 then [(element.headD 'X').toUpper]
    else pyCapitalize (element.take 2)
  let elem_key : List Char :=
    if (lookupD atomic_masses (⟨ek0⟩ : String)).isNone then [(element.headD 'X').toUpper]
    else ek0
  let mass := (lookupD atomic_masses (⟨elem_key⟩ : String)).getD 12
  toString p.2 ++ " " ++ fmtFloat mass 3 ++ "  # " ++ ff_type

/-- One row of the commented bond-type reference block. -/
def bondTypeRefLine (p : (String × String × String) × Nat) : String :=
  "#   Type " ++ toString p.2 ++ ": " ++ p.1.1 ++ "-" ++ p.1.2.1 ++
    " (" ++ p.1.2.2 ++ ")"

/-- One `Atoms` row: dense index, molecule id 1, type, charge, x, y, z. -/
def atomRow (p : Nat × Atom) : String :=
  toString p.1 ++ " 1 " ++ toString p.2.atom_type ++ " " ++
    fmtFloat p.2.charge 6 ++ " " ++ fmtFloat p.2.x 8 ++ " " ++
    fmtFloat p.2.y 8 ++ " " ++ fmtFloat p.2.z 8

/-- One `Bonds` row: bond id, bond type, the two endpoint dense indices. -/
def bondRow (b : Bond) : String :=
  toString b.id ++ " " ++ toString b.type ++ " " ++
    toString b.atom1 ++ " " ++ toString b.atom2

/-- The rows of the `Atoms` section, iterating
`for atom_idx in sorted(self.atoms.keys())`. -/
def atomsRows (m : Model) : List String :=
  (sortBy (fun p => p.1) m.atoms).map atomRow

/-- The rows of the `Bonds` section, in stored (bond-id) order. -/
def bondsRows (m : Model) : List String :=
  m.bonds.map bondRow

/-- Append a newline to every line and concatenate. -/
def joinLines (l : List String) : String :=
  String.join (l.map (fun s => s ++ "\n"))

/-- `write_lammps_data`: renders the model into the LAMMPS data file text.
The method never assigns to the object, so the threaded state is returned
alongside the produced text. -/
def write_lammps_data (m : Model) : Model × String :=
  let header := "LAMMPS data file - converted from XSD\n\n"
  let counts :=
    toString m.atoms.length ++ " atoms\n" ++
    toString m.bonds.length ++ " bonds\n" ++
    toString m.angles.length ++ " angles\n" ++
    toString m.dihedrals.length ++ " dihedrals\n" ++
    "0 impropers\n\n"
  let types :=
    toString m.atom_types.length ++ " atom types\n" ++
    toString m.bond_types.length ++ " bond types\n" ++
    toString m.angle_types.length ++ " angle types\n" ++
    toString m.dihedral_types.length ++ " dihedral types\n\n"
  let boxSec :=
    fmtFloat m.box_bounds.xlo 6 ++ " " ++ fmtFloat m.box_bounds.xhi 6 ++ " xlo xhi\n" ++
    fmtFloat m.box_bounds.ylo 6 ++ " " ++ fmtFloat m.box_bounds.yhi 6 ++ " ylo yhi\n" ++
    fmtFloat m.box_bounds.zlo 6 ++ " " ++ fmtFloat m.box_bounds.zhi 6 ++ " zlo zhi\n\n"
  let massesSec := "Masses\n\n" ++
    joinLines ((sortBy (fun p => p.2) m.atom_types).map massLine) ++ "\n"
  let bondRefSec :=
    if m.bond_types.isEmpty then ""
    else "# Bond Types Reference:\n" ++
      joinLines ((sortBy (fun p => p.2) m.bond_types).map bondTypeRefLine) ++ "\n"
  let atomsSec := "Atoms\n\n" ++ joinLines (atomsRows m) ++ "\n"
  let bondsSec :=
    if m.bonds.isEmpty then ""
    else "Bonds\n\n" ++ joinLines (bondsRows m) ++ "\n"
  (m, header ++ counts ++ types ++ boxSec ++ massesSec ++ bondRefSec ++
    atomsSec ++ bondsSec)

/-! Alternative element-resolution definitions used to settle claim C2. -/

/-- Element resolution exactly as claim C2 words it: if a child `Components`
element exists and its text is non-empty, use that text; otherwise use the
`Components` attribute when present; otherwise `"X"` — with a child whose
text is empty falling through to the attribute. -/
def resolveElementClaimed (atom_elem : XMLElem) : String :=
  let attr_fallback :=
    match atom_elem.getAttr "Components" with
    | some v => v
    | none => "X"
  match atom_elem.children.find?
      (fun c => decide (c.tag = "Components") || decide (c.tag = nsTag "Components")) with
  | some ce =>
    match ce.text with
    | some t => if t ≠ "" then t else attr_fallback
    | none => attr_fallback
  | none => attr_fallback

/-- The Components node the code's `or`-chained lookup actually selects: the
first `Components` descendant only when it has at least one child element
(a childless Python `Element` is falsy), otherwise the first direct child
with the namespace-qualified tag. -/
def componentsCandidate (atom_elem : XMLElem) : Option XMLElem :=
  match findDesc atom_elem "Components" with
  | some e =>
    if e.children.isEmpty then findChild atom_elem (nsTag "Components")
    else some e
  | none => findChild atom_elem (nsTag "Components")

/-- Element resolution as the amended claim states it: when a candidate node
is selected, its non-empty text is used and empty or missing text yields
`"X"` directly (no attribute fallback); only when no candidate is selected
is the `Components` attribute consulted, with default `"X"`. -/
def resolveElementAmended (atom_elem : XMLElem) : String :=
  match componentsCandidate atom_elem with
  | some ce =>
    match ce.text with
    | some t => if t ≠ "" then t else "X"
    | none => "X"
  | none =>
    match atom_elem.getAttr "Components" with
    | some v => v
    | none => "X"

/-! Concrete inputs used by the claim theorems and witnesses. -/

/-- C1 scenario, first atom: source ID 5, element C via the Components
attribute. -/
def c1Atom1 : XMLElem := .mk "Atom3d" [("ID", "5"), ("Components", "C")] none []

/-- C1 scenario, second atom: source ID 9, element H. -/
def c1Atom2 : XMLElem := .mk "Atom3d" [("ID", "9"), ("Components", "H")] none []

/-- C1 scenario, the bond connecting source IDs 5 and 9. -/
def c1Bond : XMLElem := .mk "Bond" [("Connects", "5,9"), ("Type", "Single")] none []

/-- C1 scenario root. -/
def c1Root : XMLElem := .mk "AtomisticTreeRoot" [] none [c1Atom1, c1Atom2, c1Bond]

/-- The model `parse_xsd` produces for the C1 scenario. -/
def c1Model : Model := (parse_xsd c1Root).toOption.getD initModel

/-- C2 counterexample input: an atom whose only element information is a
plain (non-namespaced) `Components` child with non-empty text `"C"` and no
child elements of its own. -/
def c2cexAtom : XMLElem :=
  .mk "Atom3d" [("ID", "1")] none [.mk "Components" [] (some "C") []]

/-- C1 (spec round-trip scenario): two atoms with source IDs 5 and 9,
elements C and H, one Single bond — the parse yields 2 atoms with dense
indices 1 and 2, one bond, the two atom types C and H interned as 1 and 2,
one bond type keyed (C, H, Single), and the emitted Bonds row "1 1 1 2". -/
theorem claim_C1_roundtrip :
    parse_xsd c1Root = .ok c1Model ∧
    c1Model.atoms.length = 2 ∧
    c1Model.atoms.map Prod.fst = [1, 2] ∧
    c1Model.bonds.length = 1 ∧
    c1Model.atom_types = [("C", 1), ("H", 2)] ∧
    c1Model.bond_types = [(("C", "H", "Single"), 1)] ∧
    bondsRows c1Model = ["1 1 1 2"] :=
  ⟨rfl, rfl, rfl, rfl, rfl, rfl, rfl⟩

/-- C2 counterexample: on an atom whose `Components` child holds the
non-empty text `"C"` (and has no child elements), the claimed resolution
returns `"C"` but the code returns `"X"`: the childless first `find` result
is falsy, so Python's `or` discards it, no namespaced child exists, and the
absent attribute defaults to `"X"`. -/
theorem claim_C2_counterexample :
    resolveElementClaimed c2cexAtom = "C" ∧
    resolveElement c2cexAtom = "X" ∧
    resolveElement c2cexAtom ≠ resolveElementClaimed c2cexAtom := by
  refine ⟨rfl, rfl, ?_⟩
  decide

/-- C2 as amended: the element symbol is produced from the candidate
Components node (the first Components descendant when it has child
elements, else the first namespace-qualified Components child); a selected
candidate's non-empty text is used and empty/missing text gives "X"
directly, while the Components attribute (default "X") is consulted only
when no candidate is selected. -/
theorem claim_C2_amended_resolution (a : XMLElem) :
    resolveElement a = resolveElementAmended a := by
  unfold resolveElement resolveElementAmended
  have hcand : pyElemOr (findDesc a "Components") (findChild a (nsTag "Components")) =
      componentsCandidate a := by
    unfold pyElemOr componentsCandidate
    cases findDesc a "Components" <;> rfl
  rw [hcand]
  cases componentsCandidate a with
  | none => cases a.getAttr "Components" <;> rfl
  | some ce =>
    show (match ce.text with
          | some t => if t = "" then "X" else t
          | none => "X") =
        (match ce.text with
          | some t => if t ≠ "" then t else "X"
          | none => "X")
    cases ce.text with
    | none => rfl
    | some t => by_cases h : t = "" <;> simp [h]

/-- C4: both interning tables are idempotent (a seen key returns its stored
integer and changes nothing), assign a fresh key the next unused integer
(counter + 1, so integers start at 1 and increment by 1 in first-seen
order, keeping the table's values exactly 1..counter), and the atom-type
key is the force-field label when present, non-empty and not "unknown",
otherwise the element symbol. -/
theorem claim_C4_interning {α : Type} [DecidableEq α] :
    (∀ (t : List (α × Nat)) (c : Nat) (k : α) (v : Nat),
        lookupD t k = some v → internKey t c k = (t, c, v)) ∧
    (∀ (t : List (α × Nat)) (c : Nat) (k : α),
        lookupD t k = none → internKey t c k = (t ++ [(k, c + 1)], c + 1, c + 1)) ∧
    (∀ (t : List (α × Nat)) (c : Nat) (k : α),
        t.map Prod.snd = List.range' 1 c →
        (internKey t c k).1.map Prod.snd = List.range' 1 (internKey t c k).2.1) ∧
    (∀ ff elem : String, ff ≠ "unknown" → ff ≠ "" → atomTypeKey ff elem = ff) ∧
    (∀ elem : String, atomTypeKey "unknown" elem = elem) ∧
    (∀ elem : String, atomTypeKey "" elem = elem) := by
  refine ⟨?_, ?_, ?_, ?_, ?_, ?_⟩
  · intro t c k v h
    unfold internKey
    rw [h]
  · intro t c k h
    unfold internKey
    rw [h]
  · intro t c k h
    unfold internKey
    cases hl : lookupD t k with
    | some v => exact h.trans rfl
    | none =>
      simp only [List.map_append, h, List.map_cons, List.map_nil]
      rw [List.range'_concat]
      simp [Nat.add_comm]
  · intro ff elem h1 h2
    unfold atomTypeKey
    rw [if_neg]
    rintro (h | h) <;> [exact h1 h; exact h2 h]
  · intro elem
    unfold atomTypeKey
    rw [if_pos (Or.inl rfl)]
  · intro elem
    unfold atomTypeKey
    rw [if_pos (Or.inr rfl)]

/-- Witness for C4 at concrete inputs: looking up the seen key "C" in a
table is idempotent, interning the fresh key "H" appends it with the next
integer 2 and keeps the values 1..2, and the three atom-type-key cases. -/
theorem claim_C4_witness :
    internKey ([("C", 1)] : List (String × Nat)) 1 "C" = ([("C", 1)], 1, 1) ∧
    internKey ([("C", 1)] : List (String × Nat)) 1 "H" = ([("C", 1), ("H", 2)], 2, 2) ∧
    (internKey ([("C", 1)] : List (String × Nat)) 1 "H").1.map Prod.snd =
      List.range' 1 (internKey ([("C", 1)] : List (String × Nat)) 1 "H").2.1 ∧
    atomTypeKey "c4" "C" = "c4" ∧
    atomTypeKey "unknown" "C" = "C" ∧
    atomTypeKey "" "H" = "H" :=
  ⟨(@claim_C4_interning String _).1 _ _ _ 1 (by decide),
   (@claim_C4_interning String _).2.1 _ _ _ (by decide),
   (@claim_C4_interning String _).2.2.1 _ _ _ (by decide),
   (@claim_C4_interning String _).2.2.2.1 "c4" "C" (by decide) (by decide),
   (@claim_C4_interning String _).2.2.2.2.1 "C",
   (@claim_C4_interning String _).2.2.2.2.2 "H"⟩

/-- C10: writing the data file does not modify the model — the emitter is a
pure reader of the threaded state, so the state it returns is exactly the
state it was given, collection by collection. -/
theorem claim_C10_write_pure (m : Model) :
    (write_lammps_data m).1 = m ∧
    (write_lammps_data m).1.atoms = m.atoms ∧
    (write_lammps_data m).1.bonds = m.bonds ∧
    (write_lammps_data m).1.atom_types = m.atom_types ∧
    (write_lammps_data m).1.bond_types = m.bond_types ∧
    (write_lammps_data m).1.box_bounds = m.box_bounds :=
  ⟨rfl, rfl, rfl, rfl, rfl, rfl⟩

/-! Structural lemmas on the parsing pipeline. -/

theorem dictInsert_fresh {α β : Type} [DecidableEq α] (d : List (α × β)) (k : α) (v : β)
    (h : ∀ p ∈ d, p.1 ≠ k) : dictInsert d k v = d ++ [(k, v)] := by
  unfold dictInsert
  rw [if_neg]
  simp only [List.any_eq_true, decide_eq_true_eq, not_exists]
  intro p
  intro hp
  exact h p hp.1 hp.2

theorem mem_range'_bounds {m s n : Nat} (h : m ∈ List.range' s n) : s ≤ m ∧ m < s + n := by
  induction n generalizing s with
  | zero => cases h
  | succ n ih =>
    rw [List.range'_succ] at h
    rcases List.mem_cons.mp h with rfl | h
    · omega
    · have := ih h
      omega

theorem range'_pairwise_le (s n : Nat) : (List.range' s n).Pairwise (· ≤ ·) := by
  induction n generalizing s with
  | zero => exact List.Pairwise.nil
  | succ n ih =>
    rw [List.range'_succ]
    refine List.Pairwise.cons ?_ (ih (s + 1))
    intro b hb
    have := mem_range'_bounds hb
    omega

/-- Shape of a successful atom step: the atoms dict gains exactly one entry
at the dense index, and the bond-side and box state is untouched. -/
theorem processAtom_ok_shape (st : Model) (idx : Nat) (e : XMLElem) (st' : Model)
    (h : processAtom st idx e = .ok st') :
    (∃ a, st'.atoms = dictInsert st.atoms idx a) ∧
      st'.bonds = st.bonds ∧
      st'.bond_types = st.bond_types ∧
      st'.bond_type_counter = st.bond_type_counter ∧
      st'.box_bounds = st.box_bounds := by
  unfold processAtom at h
  split at h
  · exact absurd h (by simp)
  · split at h
    · exact absurd h (by simp)
    · split at h
      · exact absurd h (by simp)
      · injection h with h
        subst h
        exact ⟨⟨_, rfl⟩, rfl, rfl, rfl, rfl⟩

/-- The atom pass never touches bonds, bond types or the box. -/
theorem processAtoms_frame (es : List XMLElem) : ∀ (st : Model) (idx : Nat) (st' : Model),
    processAtoms st idx es = .ok st' →
    st'.bonds = st.bonds ∧ st'.bond_types = st.bond_types ∧
      st'.bond_type_counter = st.bond_type_counter ∧
      st'.box_bounds = st.box_bounds := by
  induction es with
  | nil =>
    intro st idx st' h
    injection h with h
    subst h
    exact ⟨rfl, rfl, rfl, rfl⟩
  | cons e rest ih =>
    intro st idx st' h
    simp only [processAtoms] at h
    cases hA : processAtom st idx e with
    | error er => rw [hA] at h; exact absurd h (by simp)
    | ok st1 =>
      rw [hA] at h
      obtain ⟨h1, h2, h3, h4⟩ := ih st1 (idx + 1) st' h
      obtain ⟨_, g1, g2, g3, g4⟩ := processAtom_ok_shape st idx e st1 hA
      exact ⟨h1.trans g1, h2.trans g2, h3.trans g3, h4.trans g4⟩

/-- Dense indices: starting from a dict whose keys are 1..n and counting on
from n+1, the atom pass leaves the keys exactly 1..(n + number of atom
elements), in order. -/
theorem processAtoms_keys (es : List XMLElem) : ∀ (st : Model) (n : Nat) (st' : Model),
    st.atoms.map Prod.fst = List.range' 1 n →
    processAtoms st (n + 1) es = .ok st' →
    st'.atoms.map Prod.fst = List.range' 1 (n + es.length) := by
  induction es with
  | nil =>
    intro st n st' h0 h
    injection h with h
    subst h
    simpa using h0
  | cons e rest ih =>
    intro st n st' h0 h
    simp only [processAtoms] at h
    cases hA : processAtom st (n + 1) e with
    | error er => rw [hA] at h; exact absurd h (by simp)
    | ok st1 =>
      rw [hA] at h
      obtain ⟨⟨a, ha⟩, _⟩ := processAtom_ok_shape st (n + 1) e st1 hA
      have fresh : ∀ p ∈ st.atoms, p.1 ≠ n + 1 := by
        intro p hp hcontra
        have : p.1 ∈ List.range' 1 n := by
          rw [← h0]
          exact List.mem_map_of_mem Prod.fst hp
        have := mem_range'_bounds this
        omega
      have h1 : st1.atoms.map Prod.fst = List.range' 1 (n + 1) := by
        rw [ha, dictInsert_fresh st.atoms (n + 1) a fresh, List.map_append, h0]
        rw [List.range'_concat]
        simp [Nat.add_comm]
      have h2 := ih st1 (n + 1) st' h1 h
      rw [h2]
      congr 1
      simp
      omega

/-- Decomposition of a successful `parse_xsd` into its three phases. -/
theorem parse_xsd_inv (root : XMLElem) (m : Model) (h : parse_xsd root = .ok m) :
    ∃ st1 st2, processAtoms initModel 1 (atomsListOf root) = .ok st1 ∧
      processBonds st1 1 [] (bondsListOf root) = .ok st2 ∧
      m = calculate_box_bounds st2 := by
  unfold parse_xsd at h
  split at h
  · exact absurd h (by simp)
  · rename_i st1 h1
    split at h
    · exact absurd h (by simp)
    · rename_i st2 h2
      injection h with h
      exact ⟨st1, st2, h1, h2, h.symm⟩

/-- The box computation does not change any collection. -/
theorem calculate_box_collections (st : Model) :
    (calculate_box_bounds st).atoms = st.atoms ∧
      (calculate_box_bounds st).bonds = st.bonds ∧
      (calculate_box_bounds st).atom_types = st.atom_types ∧
      (calculate_box_bounds st).bond_types = st.bond_types := by
  unfold calculate_box_bounds
  split <;> exact ⟨rfl, rfl, rfl, rfl⟩

theorem sortPair_le (i j : Nat) : (sortPair i j).1 ≤ (sortPair i j).2 := by
  unfold sortPair
  split <;> omega

/-- Character extensionality through code points. -/
theorem char_eq_of_toNat_eq {a b : Char} (h : a.toNat = b.toNat) : a = b :=
  Char.ext (UInt32.ext h)

theorem charListLe_total (a : List Char) : ∀ b, charListLe a b = true ∨ charListLe b a = true := by
  induction a with
  | nil => intro b; left; rfl
  | cons x xs ih =>
    intro b
    cases b with
    | nil => right; rfl
    | cons y ys =>
      by_cases h1 : x.toNat < y.toNat
      · left; simp [charListLe, h1]
      · by_cases h2 : y.toNat < x.toNat
        · right; simp [charListLe, h2]
        · rcases ih ys with h | h
          · left; simp [charListLe, h1, h2, h]
          · right; simp [charListLe, h1, h2, h]

theorem charListLe_antisymm (a : List Char) : ∀ b, charListLe a b = true →
    charListLe b a = true → a = b := by
  induction a with
  | nil =>
    intro b h1 h2
    cases b with
    | nil => rfl
    | cons y ys => simp [charListLe] at h2
  | cons x xs ih =>
    intro b h1 h2
    cases b with
    | nil => simp [charListLe] at h1
    | cons y ys =>
      by_cases hxy : x.toNat < y.toNat
      · have hyx : ¬ y.toNat < x.toNat := by omega
        simp [charListLe, hxy, hyx] at h2
      · by_cases hyx : y.toNat < x.toNat
        · simp [charListLe, hxy, hyx] at h1
        · have hx : x = y := char_eq_of_toNat_eq (by omega)
          subst hx
          have h1' : charListLe xs ys = true := by
            simpa [charListLe, hxy, hyx] using h1
          have h2' : charListLe ys xs = true := by
            simpa [charListLe, hxy, hyx] using h2
          rw [ih ys h1' h2']

/-- The bond-type key is symmetric in the two element symbols: C-H and H-C
collapse to the same key. -/
theorem bondTypeKey_symm (e1 e2 ord : String) : bondTypeKey e1 e2 ord = bondTypeKey e2 e1 ord := by
  unfold bondTypeKey pyStrLe
  by_cases h1 : charListLe e1.data e2.data = true
  · by_cases h2 : charListLe e2.data e1.data = true
    · have hd : e1.data = e2.data := charListLe_antisymm _ _ h1 h2
      have he : e1 = e2 := by
        cases e1
        cases e2
        exact congrArg String.mk hd
      subst he
      rfl
    · simp [h1, h2]
  · have h2 : charListLe e2.data e1.data = true := (charListLe_total _ _).resolve_left h1
    simp [h1, h2]

/-- Invariant carried through the bond loop: every stored bond has its
endpoints in sorted order, the unordered endpoint pairs are pairwise
distinct and all recorded in `processed`, and the bond IDs are exactly
1..(number of bonds) with the running counter one past them. -/
def BondInv (st : Model) (bond_id : Nat) (processed : List (Nat × Nat)) : Prop :=
  (∀ b ∈ st.bonds, b.atom1 ≤ b.atom2) ∧
  (st.bonds.map (fun b => (b.atom1, b.atom2))).Nodup ∧
  (∀ b ∈ st.bonds, (b.atom1, b.atom2) ∈ processed) ∧
  st.bonds.map Bond.id = List.range' 1 st.bonds.length ∧
  bond_id = st.bonds.length + 1

/-- One successful bond step preserves the bond-loop invariant and leaves
the atoms, the box and the ID map untouched, whether it skips the element
or appends one deduplicated, endpoint-sorted bond. -/
theorem processBond_step (st : Model) (bond_id : Nat) (processed : List (Nat × Nat))
    (e : XMLElem) (st' : Model) (bid' : Nat) (proc' : List (Nat × Nat))
    (h : processBond st bond_id processed e = .ok (st', bid', proc'))
    (inv : BondInv st bond_id processed) :
    BondInv st' bid' proc' ∧ st'.atoms = st.atoms ∧ st'.box_bounds = st.box_bounds ∧
      st'.xsd_id_to_lammps_idx = st.xsd_id_to_lammps_idx := by
  obtain ⟨i1, i2, i3, i4, i5⟩ := inv
  unfold processBond at h
  dsimp only at h
  split at h
  · injection h with h
    simp only [Prod.mk.injEq] at h
    obtain ⟨rfl, rfl, rfl⟩ := h
    exact ⟨⟨i1, i2, i3, i4, i5⟩, rfl, rfl, rfl⟩
  · split at h
    · injection h with h
      simp only [Prod.mk.injEq] at h
      obtain ⟨rfl, rfl, rfl⟩ := h
      exact ⟨⟨i1, i2, i3, i4, i5⟩, rfl, rfl, rfl⟩
    · split at h
      · split at h
        · split at h
          · injection h with h
            simp only [Prod.mk.injEq] at h
            obtain ⟨rfl, rfl, rfl⟩ := h
            exact ⟨⟨i1, i2, i3, i4, i5⟩, rfl, rfl, rfl⟩
          · rename_i hmem
            split at h
            · injection h with h
              simp only [Prod.mk.injEq] at h
              obtain ⟨rfl, rfl, rfl⟩ := h
              refine ⟨⟨?_, ?_, ?_, ?_, ?_⟩, rfl, rfl, rfl⟩
              · intro x hx
                rcases List.mem_append.mp hx with hx | hx
                · exact i1 x hx
                · rw [List.mem_singleton.mp hx]
                  exact sortPair_le _ _
              · dsimp only
                rw [List.map_append, List.nodup_append]
                refine ⟨i2, by simp, ?_⟩
                intro x hx hx2
                obtain ⟨c, hc, hcx⟩ := List.mem_map.mp hx
                have hxp : x ∈ processed := hcx ▸ i3 c hc
                simp only [List.map_cons, List.map_nil, List.mem_singleton] at hx2
                rw [hx2, Prod.mk.eta] at hxp
                exact hmem hxp
              · intro x hx
                rcases List.mem_append.mp hx with hx | hx
                · exact List.mem_cons_of_mem _ (i3 x hx)
                · rw [List.mem_singleton.mp hx]
                  dsimp only
                  rw [Prod.mk.eta]
                  exact List.mem_cons_self _ _
              · dsimp only
                rw [List.map_append, List.length_append, i4]
                simp only [List.map_cons, List.map_nil, List.length_cons,
                  List.length_nil]
                rw [i5, List.range'_concat]
                simp [Nat.add_comm]
              · dsimp only
                rw [List.length_append, i5]
                simp
            · exact absurd h (by simp)
            · exact absurd h (by simp)
        · injection h with h
          simp only [Prod.mk.injEq] at h
          obtain ⟨rfl, rfl, rfl⟩ := h
          exact ⟨⟨i1, i2, i3, i4, i5⟩, rfl, rfl, rfl⟩
      · injection h with h
        simp only [Prod.mk.injEq] at h
        obtain ⟨rfl, rfl, rfl⟩ := h
        exact ⟨⟨i1, i2, i3, i4, i5⟩, rfl, rfl, rfl⟩

/-- Folding the bond loop preserves the invariant and the atom-side state. -/
theorem processBonds_inv (es : List XMLElem) : ∀ (st : Model) (bond_id : Nat)
    (processed : List (Nat × Nat)) (st' : Model),
    processBonds st bond_id processed es = .ok st' →
    BondInv st bond_id processed →
    (∃ bid' proc', BondInv st' bid' proc') ∧ st'.atoms = st.atoms ∧
      st'.box_bounds = st.box_bounds ∧
      st'.xsd_id_to_lammps_idx = st.xsd_id_to_lammps_idx := by
  induction es with
  | nil =>
    intro st bid proc st' h inv
    injection h with h
    subst h
    exact ⟨⟨bid, proc, inv⟩, rfl, rfl, rfl⟩
  | cons e rest ih =>
    intro st bid proc st' h inv
    simp only [processBonds] at h
    cases hB : processBond st bid proc e with
    | error er => rw [hB] at h; exact absurd h (by simp)
    | ok trip =>
      obtain ⟨st1, bid1, proc1⟩ := trip
      rw [hB] at h
      obtain ⟨inv1, f1, f2, f3⟩ := processBond_step st bid proc e st1 bid1 proc1 hB inv
      obtain ⟨hex, g1, g2, g3⟩ := ih st1 bid1 proc1 st' h inv1
      exact ⟨hex, g1.trans f1, g2.trans f2, g3.trans f3⟩

/-- At the start of the bond loop the invariant holds trivially. -/
theorem BondInv_init (st : Model) (h : st.bonds = []) : BondInv st 1 [] := by
  unfold BondInv
  rw [h]
  exact ⟨by simp, by simp, by simp, by simp, by simp⟩

/-- An insertion sort by key leaves a list already sorted by that key
unchanged. -/
theorem sortBy_of_pairwise_le {α : Type} (f : α → Nat) (l : List α)
    (h : (l.map f).Pairwise (· ≤ ·)) : sortBy f l = l := by
  induction l with
  | nil => rfl
  | cons x xs ih =>
    rw [List.map_cons, List.pairwise_cons] at h
    obtain ⟨hx, hxs⟩ := h
    have hrec := ih hxs
    show insertBy f x (sortBy f xs) = x :: xs
    rw [hrec]
    cases xs with
    | nil => rfl
    | cons y ys =>
      have hle : f x ≤ f y := hx (f y) (by simp)
      simp [insertBy, hle]

/-- C3: for every successfully parsed input the dense atom indices are
exactly 1..N in document order (N = number of Atom3d elements found,
whatever the source IDs were), and the Atoms section emits exactly N rows,
one per atom, in that ascending dense-index order. -/
theorem claim_C3_dense_indices (root : XMLElem) (m : Model)
    (h : parse_xsd root = .ok m) :
    m.atoms.map Prod.fst = List.range' 1 (atomsListOf root).length ∧
    atomsRows m = m.atoms.map atomRow ∧
    (atomsRows m).length = (atomsListOf root).length := by
  obtain ⟨st1, st2, hA, hB, hC⟩ := parse_xsd_inv root m h
  have hkeys1 : st1.atoms.map Prod.fst = List.range' 1 (atomsListOf root).length := by
    have h0 : initModel.atoms.map Prod.fst = List.range' 1 0 := rfl
    have := processAtoms_keys (atomsListOf root) initModel 0 st1 h0 hA
    simpa using this
  have inv1 : BondInv st1 1 [] := BondInv_init st1 (processAtoms_frame _ _ _ _ hA).1
  obtain ⟨-, hat2, -, -⟩ := processBonds_inv (bondsListOf root) st1 1 [] st2 hB inv1
  have hatm : m.atoms = st1.atoms := by
    rw [hC, (calculate_box_collections st2).1, hat2]
  have hkeys : m.atoms.map Prod.fst = List.range' 1 (atomsListOf root).length := by
    rw [hatm]
    exact hkeys1
  have hrows : atomsRows m = m.atoms.map atomRow := by
    unfold atomsRows
    rw [sortBy_of_pairwise_le]
    have hpw := range'_pairwise_le 1 (atomsListOf root).length
    rw [← hkeys] at hpw
    exact hpw
  refine ⟨hkeys, hrows, ?_⟩
  rw [hrows, List.length_map]
  have := congrArg List.length hkeys
  simpa using this

/-- C5: in every successfully parsed model each bond stores its endpoints
smaller-first, the unordered endpoint pairs of the stored bonds are
pairwise distinct (duplicated or endpoint-swapped source declarations
collapse), and the bond-type key is symmetric in the element symbols. -/
theorem claim_C5_bond_dedup (root : XMLElem) (m : Model)
    (h : parse_xsd root = .ok m) :
    (∀ b ∈ m.bonds, b.atom1 ≤ b.atom2) ∧
    (m.bonds.map (fun b => (b.atom1, b.atom2))).Nodup ∧
    (∀ e1 e2 ord : String, bondTypeKey e1 e2 ord = bondTypeKey e2 e1 ord) := by
  obtain ⟨st1, st2, hA, hB, hC⟩ := parse_xsd_inv root m h
  have inv1 : BondInv st1 1 [] := BondInv_init st1 (processAtoms_frame _ _ _ _ hA).1
  obtain ⟨⟨bid2, proc2, inv2⟩, -, -, -⟩ :=
    processBonds_inv (bondsListOf root) st1 1 [] st2 hB inv1
  have hmb : m.bonds = st2.bonds := by
    rw [hC]
    exact (calculate_box_collections st2).2.1
  refine ⟨?_, ?_, bondTypeKey_symm⟩
  · rw [hmb]
    exact inv2.1
  · rw [hmb]
    exact inv2.2.1

/-- C6: a Bond element whose Connects endpoints parse but reference a
source ID absent from the ID map is dropped without error and without
advancing the bond-ID counter or the dedup set; consequently, in every
successfully parsed model the emitted bond IDs are exactly the contiguous
run 1..B in acceptance order. -/
theorem claim_C6_unknown_endpoint :
    (∀ (st : Model) (bond_id : Nat) (processed : List (Nat × Nat)) (e : XMLElem)
        (a1 a2 : Int),
        parseConnects ((e.getAttr "Connects").getD "") = some [a1, a2] →
        (lookupD st.xsd_id_to_lammps_idx a1 = none ∨
          lookupD st.xsd_id_to_lammps_idx a2 = none) →
        processBond st bond_id processed e = .ok (st, bond_id, processed)) ∧
    (∀ (root : XMLElem) (m : Model), parse_xsd root = .ok m →
        m.bonds.map Bond.id = List.range' 1 m.bonds.length) := by
  constructor
  · intro st bond_id processed e a1 a2 hpc hlk
    have hc : ¬ ((e.getAttr "Connects").getD "" = "") := by
      intro hc
      rw [hc] at hpc
      have hnone : parseConnects "" = none := by decide
      rw [hnone] at hpc
      exact Option.noConfusion hpc
    unfold processBond
    dsimp only
    rw [if_neg hc, hpc]
    cases hl1 : lookupD st.xsd_id_to_lammps_idx a1 with
    | none => simp [hl1]
    | some i1 =>
      cases hl2 : lookupD st.xsd_id_to_lammps_idx a2 with
      | none => simp [hl1, hl2]
      | some i2 =>
        exfalso
        rcases hlk with hlk | hlk
        · rw [hl1] at hlk
          exact Option.noConfusion hlk
        · rw [hl2] at hlk
          exact Option.noConfusion hlk
  · intro root m h
    obtain ⟨st1, st2, hA, hB, hC⟩ := parse_xsd_inv root m h
    have inv1 : BondInv st1 1 [] := BondInv_init st1 (processAtoms_frame _ _ _ _ hA).1
    obtain ⟨⟨bid2, proc2, inv2⟩, -, -, -⟩ :=
      processBonds_inv (bondsListOf root) st1 1 [] st2 hB inv1
    have hmb : m.bonds = st2.bonds := by
      rw [hC]
      exact (calculate_box_collections st2).2.1
    rw [hmb]
    exact inv2.2.2.2.1

/-- C7: after a successful parse, an atom-free model keeps the all-zero box
bounds, and otherwise each bound is the per-axis minimum minus 10 (lo) or
the per-axis maximum plus 10 (hi) over all atom coordinates. -/
theorem claim_C7_box_bounds (root : XMLElem) (m : Model)
    (h : parse_xsd root = .ok m) :
    (m.atoms = [] → m.box_bounds = ⟨0, 0, 0, 0, 0, 0⟩) ∧
    (m.atoms ≠ [] →
      m.box_bounds = ⟨pyMinList (m.atoms.map fun p => p.2.x) - 10,
        pyMaxList (m.atoms.map fun p => p.2.x) + 10,
        pyMinList (m.atoms.map fun p => p.2.y) - 10,
        pyMaxList (m.atoms.map fun p => p.2.y) + 10,
        pyMinList (m.atoms.map fun p => p.2.z) - 10,
        pyMaxList (m.atoms.map fun p => p.2.z) + 10⟩) := by
  obtain ⟨st1, st2, hA, hB, hC⟩ := parse_xsd_inv root m h
  have hbox1 : st1.box_bounds = initModel.box_bounds :=
    (processAtoms_frame _ _ _ _ hA).2.2.2
  have inv1 : BondInv st1 1 [] := BondInv_init st1 (processAtoms_frame _ _ _ _ hA).1
  obtain ⟨-, -, hbox2, -⟩ := processBonds_inv (bondsListOf root) st1 1 [] st2 hB inv1
  subst hC
  unfold calculate_box_bounds
  by_cases he : st2.atoms.isEmpty
  · rw [if_pos he]
    constructor
    · intro _
      rw [hbox2, hbox1]
      rfl
    · intro hne
      exact absurd (List.isEmpty_iff.mp he) hne
  · rw [if_neg he]
    constructor
    · intro hnil
      have hnil' : st2.atoms = [] := hnil
      rw [hnil'] at he
      exact absurd rfl he
    · intro _
      rfl

/-- C8: an atom element whose XYZ attribute fails the three-float parse is
still accepted (given a usable ID and charge): the step succeeds and stores
the atom with position (0, 0, 0). -/
theorem claim_C8_bad_xyz (st : Model) (idx : Nat) (e : XMLElem) (s : String)
    (i : Int) (c : Rat) (hid : e.getAttr "ID" = some s) (hi : pyInt? s = some i)
    (hc : pyCharge e = .ok c)
    (hxyz : pyXYZ3? ((e.getAttr "XYZ").getD "0,0,0") = none) :
    ∃ (st' : Model) (a : Atom), processAtom st idx e = .ok st' ∧
      st'.atoms = dictInsert st.atoms idx a ∧ a.x = 0 ∧ a.y = 0 ∧ a.z = 0 := by
  unfold processAtom
  dsimp only
  simp only [hid, hi, hc, hxyz, Option.getD_none]
  exact ⟨_, _, rfl, rfl, rfl, rfl, rfl⟩

/-- If some atom element always fails, the whole atom pass fails. -/
theorem processAtoms_fail (es : List XMLElem) (e : XMLElem) (he : e ∈ es)
    (hfail : ∀ (st : Model) (idx : Nat), processAtom st idx e = .error .missingID) :
    ∀ (st : Model) (idx : Nat) (m : Model), processAtoms st idx es ≠ .ok m := by
  induction es with
  | nil => cases he
  | cons x xs ih =>
    intro st idx m h
    simp only [processAtoms] at h
    cases hx : processAtom st idx x with
    | error er => rw [hx] at h; exact absurd h (by simp)
    | ok st1 =>
      rw [hx] at h
      rcases List.mem_cons.mp he with rfl | hmem
      · exact Except.noConfusion ((hfail st idx).symm.trans hx)
      · exact ih hmem st1 (idx + 1) m h

/-- C9: an atom element with no ID attribute makes its step fail with the
fatal malformed-input error (Python's `int(None)` raises), and the whole
single-file parse of any document containing such an atom element cannot
succeed — the atom is neither skipped nor defaulted. -/
theorem claim_C9_missing_id (root e : XMLElem) (hmem : e ∈ atomsListOf root)
    (hid : e.getAttr "ID" = none) :
    (∀ (st : Model) (idx : Nat), processAtom st idx e = .error PError.missingID) ∧
    (∀ m : Model, parse_xsd root ≠ .ok m) := by
  have h1 : ∀ (st : Model) (idx : Nat), processAtom st idx e = .error PError.missingID := by
    intro st idx
    unfold processAtom
    rw [hid]
  refine ⟨h1, ?_⟩
  intro m hm
  obtain ⟨st1, st2, hA, hB, hC⟩ := parse_xsd_inv root m hm
  exact processAtoms_fail (atomsListOf root) e hmem h1 initModel 1 st1 hA

/-! Concrete witnesses instantiating the conditional claim theorems. -/

/-- Witness input for C3: two atoms with sparse, non-monotonic source IDs. -/
def w3Root : XMLElem :=
  .mk "root" [] none
    [.mk "Atom3d" [("ID", "42")] none [], .mk "Atom3d" [("ID", "7")] none []]

/-- The parsed model of the C3 witness input. -/
def w3Model : Model := (parse_xsd w3Root).toOption.getD initModel

/-- Witness for C3 at a concrete input with source IDs 42 and 7. -/
theorem claim_C3_witness :
    w3Model.atoms.map Prod.fst = List.range' 1 (atomsListOf w3Root).length ∧
    atomsRows w3Model = w3Model.atoms.map atomRow ∧
    (atomsRows w3Model).length = (atomsListOf w3Root).length :=
  claim_C3_dense_indices w3Root w3Model rfl

/-- Witness input for C5: the same unordered pair declared twice, with the
endpoints swapped the second time. -/
def w5Root : XMLElem :=
  .mk "root" [] none
    [.mk "Atom3d" [("ID", "5"), ("Components", "H")] none [],
     .mk "Atom3d" [("ID", "9"), ("Components", "C")] none [],
     .mk "Bond" [("Connects", "5,9")] none [],
     .mk "Bond" [("Connects", "9,5")] none []]

/-- The parsed model of the C5 witness input. -/
def w5Model : Model := (parse_xsd w5Root).toOption.getD initModel

/-- Witness for C5 at a concrete input with a duplicated, swapped bond. -/
theorem claim_C5_witness :
    (∀ b ∈ w5Model.bonds, b.atom1 ≤ b.atom2) ∧
    (w5Model.bonds.map (fun b => (b.atom1, b.atom2))).Nodup ∧
    (∀ e1 e2 ord : String, bondTypeKey e1 e2 ord = bondTypeKey e2 e1 ord) :=
  claim_C5_bond_dedup w5Root w5Model rfl

/-- Witness input for C6: a bond whose second endpoint (99) has no atom. -/
def w6Bond : XMLElem := .mk "Bond" [("Connects", "1,99")] none []

/-- Witness root for C6's contiguity part. -/
def w6Root : XMLElem := .mk "root" [] none []

/-- Witness for C6: the dangling bond is skipped without state change, and
the bond IDs of a parsed model form the contiguous run. -/
theorem claim_C6_witness :
    processBond initModel 1 [] w6Bond = .ok (initModel, 1, []) ∧
    initModel.bonds.map Bond.id = List.range' 1 initModel.bonds.length :=
  ⟨claim_C6_unknown_endpoint.1 initModel 1 [] w6Bond 1 99 (by decide) (Or.inl (by decide)),
   claim_C6_unknown_endpoint.2 w6Root initModel rfl⟩

/-- Witness input for C7: one atom at (1.5, -2, 3). -/
def w7Root : XMLElem :=
  .mk "root" [] none [.mk "Atom3d" [("ID", "3"), ("XYZ", "1.5,-2,3")] none []]

/-- The parsed model of the C7 witness input. -/
def w7Model : Model := (parse_xsd w7Root).toOption.getD initModel

/-- Witness for C7 at a concrete one-atom input. -/
theorem claim_C7_witness :
    (w7Model.atoms = [] → w7Model.box_bounds = ⟨0, 0, 0, 0, 0, 0⟩) ∧
    (w7Model.atoms ≠ [] →
      w7Model.box_bounds = ⟨pyMinList (w7Model.atoms.map fun p => p.2.x) - 10,
        pyMaxList (w7Model.atoms.map fun p => p.2.x) + 10,
        pyMinList (w7Model.atoms.map fun p => p.2.y) - 10,
        pyMaxList (w7Model.atoms.map fun p => p.2.y) + 10,
        pyMinList (w7Model.atoms.map fun p => p.2.z) - 10,
        pyMaxList (w7Model.atoms.map fun p => p.2.z) + 10⟩) :=
  claim_C7_box_bounds w7Root w7Model rfl

/-- Witness input for C8: a valid ID but an unparseable coordinate triple. -/
def w8Atom : XMLElem := .mk "Atom3d" [("ID", "7"), ("XYZ", "bad,data")] none []

/-- Witness for C8: the atom with `XYZ="bad,data"` is accepted at origin. -/
theorem claim_C8_witness :
    ∃ (st' : Model) (a : Atom), processAtom initModel 1 w8Atom = .ok st' ∧
      st'.atoms = dictInsert initModel.atoms 1 a ∧ a.x = 0 ∧ a.y = 0 ∧ a.z = 0 :=
  claim_C8_bad_xyz initModel 1 w8Atom "7" 7 0 rfl (by decide) rfl (by decide)

/-- Witness input for C9: an atom element with no ID attribute. -/
def w9Atom : XMLElem := .mk "Atom3d" [("Name", "C1")] none []

/-- Witness root for C9. -/
def w9Root : XMLElem := .mk "root" [] none [w9Atom]

/-- Witness for C9: the ID-less atom step fails fatally and the whole parse
of the containing document cannot succeed. -/
theorem claim_C9_witness :
    processAtom initModel 1 w9Atom = .error PError.missingID ∧
    (∀ m : Model, parse_xsd w9Root ≠ .ok m) := by
  have h := claim_C9_missing_id w9Root w9Atom (List.mem_cons_self w9Atom []) rfl
  exact ⟨h.1 initModel 1, h.2⟩

end XSD2LAMMPS
